import Mathlib

/-!
Shallow embedding of `include/seqan/hts_io/hts_file.h` from
DecodeGenetics/SeqAnHTS: the `HtsFile` class (an alignment-file handle
wrapping htslib) and its free functions `open`, `copyHeader`, `copyRecord`,
`loadIndex`, `buildIndex`, `setRegion`, `atEnd`, `readRecord`, `readRegion`,
`writeHeader`, `writeRecord`.

Pointers are embedded as `Option` values (`none` is a C null pointer).
The htslib collaborator (hts_open, sam_hdr_read, sam_read1, sam_itr_querys,
sam_write1, ...) is external to the repository; its calls are embedded
either as oracle fields of an `HtsEnv` record (for open/index/write results
the wrapper merely forwards) or as executable models of the documented
htslib stream/iterator behaviour (for sequential reads and region
iteration), each documented at its definition.
-/

namespace seqan

/-- Embedding of a C string pointer: an address plus the pointed-to
contents. Two pointers are the same C pointer exactly when their addresses
agree; the source compares `const char *` mode pointers with `==`, which is
address comparison, so the address is part of the model. -/
structure CStr where
  addr : Nat
  content : String
deriving DecidableEq

/-- Address of the string literal used both by the static local
`read_mode = "r"` in `HtsFile::open` and by the `"r"` literal the
`HtsFileIn` constructors pass: identical literals in the one translation
unit of this header-only library are pooled into one object. -/
def lit_r : CStr := ⟨0, "r"⟩

/-- The `"wb"` literal passed by the `HtsFileOut` constructors. -/
def lit_wb : CStr := ⟨1, "wb"⟩

/-- The `""` literal used by the empty `HtsFile` constructor's
`filename("")` initializer. -/
def lit_empty : CStr := ⟨2, ""⟩

/-- Embedding of a `bam1_t` alignment record: the fields the wrapper's
collaborators consume — query name, reference id `tid`, 0-based start
`pos`, one-past-the-end alignment coordinate `endPos`, and the sequence
payload (kept abstract as a list of code numbers). -/
structure BamRec where
  qname : String
  tid : Int
  pos : Int
  endPos : Int
  seq : List Nat
deriving DecidableEq

/-- Result of `bam_init1()`: a zero-initialized record buffer. -/
def BamRec.empty : BamRec := ⟨"", -1, -1, -1, []⟩

/-- Embedding of an open `htsFile *` stream for sequential record reading:
the file's record contents plus the read cursor. `sam_read1` yields
`records[pos]` and advances, or fails at end of stream. -/
structure StreamHandle where
  records : List BamRec
  pos : Nat
deriving DecidableEq

/-- Embedding of a `bam_hdr_t`: the reference dictionary, name and length
per reference, in tid order (`bam_name2id` resolves a name to its index
in this list). -/
structure Header where
  refs : List (String × Nat)
deriving DecidableEq

/-- Embedding of a loaded `hts_idx_t`: the set of records of the indexed
file, which the index can filter by (tid, interval) overlap. -/
structure Index where
  recs : List BamRec
deriving DecidableEq

/-- Embedding of an `hts_itr_t`: the remaining records of the region,
in file order; `sam_itr_next` pops the head. -/
structure Iter where
  recs : List BamRec
deriving DecidableEq

/-- Embedding of the `HtsFile` class fields (hts_file.h lines 27-43).
Every pointer field is an `Option`; `at_end` is the sticky end-of-stream
flag, false at construction. -/
structure HtsFile where
  filename : CStr
  fp : Option StreamHandle
  hdr : Option Header
  hts_record : Option BamRec
  hts_index : Option Index
  hts_iter : Option Iter
  file_mode : CStr
  at_end : Bool
deriving DecidableEq

/-- The empty `HtsFile(mode)` constructor: every pointer null, filename
`""`, `at_end` false. -/
def HtsFile.mkEmpty (mode : CStr) : HtsFile :=
  { filename := lit_empty, fp := none, hdr := none, hts_record := none,
    hts_index := none, hts_iter := none, file_mode := mode, at_end := false }

/-- Oracle for the htslib calls whose outcomes the wrapper merely forwards:
what `hts_open` yields for a (filename, mode) pair, what `sam_hdr_read`
parses from a stream, what the index load/build calls return, and the `int`
results of the write calls. Integer-returning calls keep htslib's return
conventions (documented at each use site). -/
structure HtsEnv where
  hts_open : CStr → CStr → Option StreamHandle
  sam_hdr_read : StreamHandle → Option Header
  sam_index_load : Option StreamHandle → CStr → Option Index
  sam_index_load2 : Option StreamHandle → CStr → CStr → Option Index
  sam_index_build : CStr → Int → Int
  sam_index_build2 : CStr → CStr → Int → Int
  sam_write1 : StreamHandle → Option Header → BamRec → Int
  sam_hdr_write : StreamHandle → Option Header → Int

/-- Embedding of the member `HtsFile::open` (lines 67-86). `hts_open`
failure hits `SEQAN_FAIL`, which aborts the process — embedded as `none`
(the commented-out `return false` never runs). The header is read only
when `file_mode == read_mode` — a `const char *` comparison, hence an
address comparison against the pooled `"r"` literal — and the result of
`sam_hdr_read` is stored unchecked. `bam_init1` allocates the record
buffer, and the function returns true; the `at_end` field is not touched. -/
def HtsFile.openFile (env : HtsEnv) (f : HtsFile) : Option (HtsFile × Bool) :=
  match env.hts_open f.filename f.file_mode with
  | none => none
  | some s =>
      let withHdr :=
        if f.file_mode.addr = lit_r.addr then
          { f with fp := some s, hdr := env.sam_hdr_read s }
        else
          { f with fp := some s }
      some ({ withHdr with hts_record := some BamRec.empty }, true)

/-- Embedding of the free function `open(HtsFile &, const char *)`
(lines 121-126): assign the filename, then run the member `open`.
(`open` is a Lean keyword, hence the name `openHts`.) -/
def openHts (env : HtsEnv) (target : HtsFile) (f : CStr) : Option (HtsFile × Bool) :=
  HtsFile.openFile env { target with filename := f }

/-- The `HtsFile(f, mode)` constructor (lines 52-56): field initialization
followed by `open()`. -/
def HtsFile.mkOpen (env : HtsEnv) (f mode : CStr) : Option (HtsFile × Bool) :=
  HtsFile.openFile env { HtsFile.mkEmpty mode with filename := f }

/-- Embedding of `copyHeader` (lines 147-151): `bam_hdr_dup` is a deep
copy, which in the value semantics of the embedding is the value itself. -/
def copyHeader (target : HtsFile) (source : HtsFile) : HtsFile :=
  { target with hdr := source.hdr }

/-- Embedding of `copyRecord` (lines 159-163): `bam_dup1` deep copy. -/
def copyRecord (target : HtsFile) (source : HtsFile) : HtsFile :=
  { target with hts_record := source.hts_record }

/-- Embedding of `loadIndex(file)` (lines 171-176): store the result of
`sam_index_load` in `hts_index`, report whether it is non-null. -/
def loadIndex (env : HtsEnv) (f : HtsFile) : HtsFile × Bool :=
  let ix := env.sam_index_load f.fp f.filename
  ({ f with hts_index := ix }, ix.isSome)

/-- Embedding of `loadIndex(file, indexFileName)` (lines 184-189). -/
def loadIndex2 (env : HtsEnv) (f : HtsFile) (indexFileName : CStr) : HtsFile × Bool :=
  let ix := env.sam_index_load2 f.fp f.filename indexFileName
  ({ f with hts_index := ix }, ix.isSome)

/-- Embedding of `buildIndex(file, min_shift)` (lines 199-203): the call
`!sam_index_build(file.filename, min_shift)` writes an index file to disk
and is true exactly when the `int` result is 0 (htslib: 0 on success,
negative on error). No field of `file` is written. -/
def buildIndex (env : HtsEnv) (f : HtsFile) (min_shift : Int) : HtsFile × Bool :=
  (f, env.sam_index_build f.filename min_shift == 0)

/-- Embedding of `buildIndex(file, indexFileName, min_shift)`
(lines 213-217). -/
def buildIndex2 (env : HtsEnv) (f : HtsFile) (indexFileName : CStr) (min_shift : Int) :
    HtsFile × Bool :=
  (f, env.sam_index_build2 f.filename indexFileName min_shift == 0)

/-- Abstract content of an hts region string: the three public forms
`NAME`, `NAME:START`, `NAME:START-END`. The string `sprintf("%s:%d-%d",
chromosome, start, end)` built by the integer `setRegion` overload is the
`range` form. -/
inductive Region where
  | all (name : String)
  | single (name : String) (a : Int)
  | range (name : String) (a : Int) (b : Int)
deriving DecidableEq

/-- Reference name of a region string. -/
def Region.rname : Region → String
  | .all n => n
  | .single n _ => n
  | .range n _ _ => n

/-- Modelled from the spec: the public region form is 1-based inclusive and
"must be converted to 0-based half-open before querying the Index"; this is
the start of the converted interval as `hts_parse_reg` computes it
(`START - 1`, or 0 when no coordinates are given). `hts_parse_reg` itself
is htslib code, outside this repository. -/
def Region.beg0 : Region → Int
  | .all _ => 0
  | .single _ a => a - 1
  | .range _ a _ => a - 1

/-- Modelled from the spec: the end of the 0-based half-open interval a
region string denotes (`END`; `START` for the single-position form; the
maximum coordinate, INT_MAX in the htslib this wrapper targets, for the
bare-name form). -/
def Region.end0 : Region → Int
  | .all _ => 2147483647
  | .single _ a => a
  | .range _ _ b => b

/-- Embedding of htslib's `bam_name2id`: resolve a reference name to its
tid, the position of the name in the header's reference dictionary, by
exact string match; unknown names fail. -/
def bam_name2id (h : Header) (name : String) : Option Int :=
  (h.refs.findIdx? (fun p => p.1 == name)).map (fun n => (n : Int))

/-- Does record `r` overlap the 0-based half-open interval `[beg, en)` on
reference `tid`? This is the candidate test a region iterator applies. -/
def overlapsRegion (r : BamRec) (tid beg en : Int) : Bool :=
  r.tid == tid && r.pos < en && beg < r.endPos

/-- Modelled from the spec: `index_query_by_name(Index, Header, regionString)
→ iterator | none` — resolve the name through the Header, convert the
1-based inclusive form to 0-based half-open, and yield the lazy sequence of
overlapping records; resolution failure yields none, and per spec invariant
(c) querying without a loaded Index (a null `hts_idx_t *`) is an error.
The htslib implementation (`sam_itr_querys`) is outside this repository. -/
def sam_itr_querys (idx : Option Index) (hdr : Option Header) (reg : Region) : Option Iter :=
  match idx, hdr with
  | some ix, some h =>
      match bam_name2id h reg.rname with
      | some tid => some ⟨ix.recs.filter (fun r => overlapsRegion r tid reg.beg0 reg.end0)⟩
      | none => none
  | _, _ => none

/-- Modelled from the spec: `index_query_by_coords(Index, refId, start, end)
→ iterator | none` — the coordinate form takes the 0-based half-open
interval as given, no 1-based conversion; a null Index is an error. The
htslib implementation (`sam_itr_queryi`) is outside this repository. -/
def sam_itr_queryi (idx : Option Index) (tid beg en : Int) : Option Iter :=
  match idx with
  | some ix => some ⟨ix.recs.filter (fun r => overlapsRegion r tid beg en)⟩
  | none => none

/-- Collaborator invocations the wrapper issues, recorded in call order so
that ordering claims (iterator destroyed before the new query; header
released before the stream handle) are visible in the embedding. -/
inductive LibCall where
  | samItrDestroy (it : Iter)
  | samItrQuerys (reg : Region)
  | samItrQueryi (tid beg en : Int)
  | bamHdrDestroy (h : Header)
  | htsClose (s : StreamHandle)
deriving DecidableEq

/-- The conditional `if (file.hts_iter != nullptr) sam_itr_destroy(...)`
that opens every `setRegion` overload: the destroy call issued when an
iterator is active. -/
def destroyCalls (f : HtsFile) : List LibCall :=
  match f.hts_iter with
  | some it => [.samItrDestroy it]
  | none => []

/-- Embedding of `setRegion(file, region)` (lines 225-233): destroy any
active iterator, then store the result of `sam_itr_querys` and report
whether it is non-null. -/
def setRegionS (f : HtsFile) (reg : Region) : HtsFile × Bool × List LibCall :=
  let ds := destroyCalls f
  let it := sam_itr_querys f.hts_index f.hdr reg
  ({ f with hts_iter := it }, it.isSome, ds ++ [.samItrQuerys reg])

/-- Embedding of `setRegion(file, chromosome, start, end)` (lines 235-245):
destroy any active iterator, format the 1-based inclusive string
`"%s:%d-%d"`, and query it. -/
def setRegionNamed (f : HtsFile) (chromosome : String) (start fin : Int) :
    HtsFile × Bool × List LibCall :=
  let ds := destroyCalls f
  let it := sam_itr_querys f.hts_index f.hdr (Region.range chromosome start fin)
  ({ f with hts_iter := it }, it.isSome, ds ++ [.samItrQuerys (Region.range chromosome start fin)])

/-- Embedding of `setRegion(file, tid, start, end)` (lines 247-255):
destroy any active iterator, then `sam_itr_queryi` on the raw
coordinates. -/
def setRegionTid (f : HtsFile) (tid start fin : Int) : HtsFile × Bool × List LibCall :=
  let ds := destroyCalls f
  let it := sam_itr_queryi f.hts_index tid start fin
  ({ f with hts_iter := it }, it.isSome, ds ++ [.samItrQueryi tid start fin])

/-- Embedding of `atEnd` (lines 263-267): a pure read of the sticky
flag. -/
def atEnd (f : HtsFile) : Bool := f.at_end

/-- Embedding of htslib's `sam_read1` on an open stream: yield the record
at the cursor and advance, or fail (negative return) at end of stream. -/
def sam_read1 (s : StreamHandle) : Option BamRec × StreamHandle :=
  match s.records[s.pos]? with
  | some r => (some r, { s with pos := s.pos + 1 })
  | none => (none, s)

/-- Embedding of `readRecord(file)` (lines 275-285): on a successful
`sam_read1` the record lands in the shared buffer and the call returns
true; otherwise `at_end` is set and the call returns false. The source
dereferences `file.fp` unconditionally, so a null stream is undefined
behaviour, embedded as `none`. -/
def readRecord (f : HtsFile) : Option (HtsFile × Bool) :=
  match f.fp with
  | none => none
  | some s =>
      match sam_read1 s with
      | (some r, s') => some ({ f with fp := some s', hts_record := some r }, true)
      | (none, s') => some ({ f with fp := some s', at_end := true }, false)

/-- Modelled from the spec: the caller-facing StructuredRecord of
`hts_alignment_record.h` (not under src/), "produced by copying fields out
of a RawRecord (owns its own data, independent lifetime)". -/
structure HtsSequenceRecord where
  qName : String
  seq : List Nat
deriving DecidableEq

/-- Modelled from the spec: `raw_to_structured(RawRecord) → StructuredRecord`
— the member `HtsSequenceRecord::parse(bam1_t *)`, which copies the name
and sequence fields out of the raw record. -/
def HtsSequenceRecord.parse (r : BamRec) : HtsSequenceRecord :=
  ⟨r.qname, r.seq⟩

/-- Modelled from the spec: the decoded alignment record of
`bam_alignment_record.h` (not under src/), copying name, reference id,
position and sequence out of the raw record. -/
structure BamAlignmentRecord where
  qName : String
  rID : Int
  beginPos : Int
  seq : List Nat
deriving DecidableEq

/-- Modelled from the spec: `raw_to_structured` for `BamAlignmentRecord`
— the free `parse(record, bam1_t *)` of `bam_alignment_record.h`. -/
def parseBamRecord (r : BamRec) : BamAlignmentRecord :=
  ⟨r.qname, r.tid, r.pos, r.seq⟩

/-- Modelled from the spec: `structured_to_raw(Header, StructuredRecord,
outBuffer)` — the free `parse(bam1_t *, hdr, record)` of
`bam_alignment_record.h`, transcoding a structured record into the raw
buffer (the header resolves reference names; the alignment end comes from
the sequence length). -/
def structured_to_raw (hdr : Option Header) (record : BamAlignmentRecord) : BamRec :=
  let _ := hdr
  ⟨record.qName, record.rID, record.beginPos,
   record.beginPos + (record.seq.length : Int), record.seq⟩

/-- Embedding of `readRecord(HtsSequenceRecord &, HtsFile &)`
(lines 294-307): run the plain `readRecord`; only on success is
`record.parse(file.hts_record)` invoked — on failure the caller's record
is returned untouched. The output triple is (record, file, result). -/
def readRecordSeq (record : HtsSequenceRecord) (f : HtsFile) :
    Option (HtsSequenceRecord × HtsFile × Bool) :=
  match readRecord f with
  | none => none
  | some (f', true) =>
      match f'.hts_record with
      | some r => some (HtsSequenceRecord.parse r, f', true)
      | none => none
  | some (f', false) => some (record, f', false)

/-- Embedding of `readRecord(BamAlignmentRecord &, HtsFile &)`
(lines 315-328): same shape, parsing into an alignment record only on
success. -/
def readRecordBam (record : BamAlignmentRecord) (f : HtsFile) :
    Option (BamAlignmentRecord × HtsFile × Bool) :=
  match readRecord f with
  | none => none
  | some (f', true) =>
      match f'.hts_record with
      | some r => some (parseBamRecord r, f', true)
      | none => none
  | some (f', false) => some (record, f', false)

/-- Embedding of `readRegion(HtsSequenceRecord &, HtsFile &)`
(lines 337-352): `sam_itr_next(file.fp, file.hts_iter, file.hts_record)`
yields the iterator's next record into the shared buffer (the iterator
model holds its remaining records; the byte-offset seeking through `fp`
is internal to htslib); on success the record is parsed, on exhaustion or
error false is returned and the caller's record is untouched. The source
dereferences `fp` and `hts_iter` unconditionally, so null values are
undefined behaviour, embedded as `none`. The `at_end` flag is not
touched on either path. -/
def readRegion (record : HtsSequenceRecord) (f : HtsFile) :
    Option (HtsSequenceRecord × HtsFile × Bool) :=
  match f.fp, f.hts_iter with
  | some _, some it =>
      match it.recs with
      | r :: rest =>
          some (HtsSequenceRecord.parse r,
                { f with hts_iter := some ⟨rest⟩, hts_record := some r }, true)
      | [] => some (record, f, false)
  | _, _ => none

/-- Embedding of `writeHeader` (lines 360-364): true exactly when
`sam_hdr_write` returns 0 (htslib: 0 on success, negative on error). A
null stream is undefined behaviour, embedded as `none`. -/
def writeHeader (env : HtsEnv) (f : HtsFile) : Option Bool :=
  match f.fp with
  | none => none
  | some s => some (env.sam_hdr_write s f.hdr == 0)

/-- Embedding of `writeRecord(file)` (lines 372-376): the source returns
`!sam_write1(file.fp, file.hdr, file.hts_record)`, i.e. true exactly when
the `int` result of `sam_write1` equals 0. Null stream or record buffer is
undefined behaviour, embedded as `none`. -/
def writeRecord (env : HtsEnv) (f : HtsFile) : Option Bool :=
  match f.fp, f.hts_record with
  | some s, some r => some (env.sam_write1 s f.hdr r == 0)
  | _, _ => none

/-- htslib's documented return contract for `sam_write1`: on success it
returns the number of bytes written to the stream (a non-negative count,
positive for any actual record in the SAM and BAM formats), and a negative
value on error — the same `>= 0` success convention the source itself
applies to `sam_read1` at line 278. -/
def sam_write1_success (ret : Int) : Prop := 0 ≤ ret

/-- Embedding of `writeRecord(file, record)` (lines 384-389): transcode
the structured record into the shared raw buffer, then run the plain
`writeRecord`. -/
def writeRecordBam (env : HtsEnv) (f : HtsFile) (record : BamAlignmentRecord) :
    Option (HtsFile × Bool) :=
  let f' := { f with hts_record := some (structured_to_raw f.hdr record) }
  (writeRecord env f').map (fun b => (f', b))

/-- Release calls `bam_hdr_destroy(hdr)` issues: htslib's header destroy
is a null-safe no-op on a null pointer and frees the header otherwise. -/
def bamHdrDestroyCalls (h : Option Header) : List LibCall :=
  match h with
  | none => []
  | some hd => [.bamHdrDestroy hd]

/-- Release calls `hts_close(fp)` issues: htslib's documented contract is
null-tolerant (a null stream yields an EINVAL error return, releasing
nothing) and closes the stream otherwise. -/
def htsCloseCalls (s : Option StreamHandle) : List LibCall :=
  match s with
  | none => []
  | some st => [.htsClose st]

/-- Embedding of the destructor `~HtsFile` (lines 61-65): the release
calls it issues, in statement order — `bam_hdr_destroy(hdr)` first, then
`hts_close(fp)`. -/
def HtsFile.destruct (f : HtsFile) : List LibCall :=
  bamHdrDestroyCalls f.hdr ++ htsCloseCalls f.fp

/-- The teardown of `~HtsFile` viewed as a close operation on the handle
state: the released resources are gone from the state afterwards, and the
calls of `HtsFile.destruct` are issued. (The source spells teardown only
as the destructor; the cleared fields express that the freed header and
closed stream no longer exist.) -/
def closeFile (f : HtsFile) : HtsFile × List LibCall :=
  ({ f with hdr := none, fp := none }, f.destruct)

/-- Repeated sequential reading: `iterateRead n f` is the outcome of the
`(n+1)`-st `readRecord` call starting from `f`. -/
def iterateRead : Nat → HtsFile → Option (HtsFile × Bool)
  | 0, f => readRecord f
  | n + 1, f =>
      match readRecord f with
      | some (g, _) => iterateRead n g
      | none => none

/-- Drain a region: collect the records produced by up to `n` successive
`readRegion` calls (stopping at the first false). -/
def drainRegion (record : HtsSequenceRecord) : Nat → HtsFile → List HtsSequenceRecord
  | 0, _ => []
  | n + 1, f =>
      match readRegion record f with
      | some (r, f', true) => r :: drainRegion record n f'
      | _ => []

/-! Concrete fixtures used to instantiate the theorems below. -/

/-- Environment in which a successful `sam_write1` reports 44 bytes
written (the typical size of a minimal BAM record on disk). -/
def envWrite : HtsEnv :=
  ⟨fun _ _ => none, fun _ => none, fun _ _ => none, fun _ _ _ => none,
   fun _ _ => 0, fun _ _ _ => 0, fun _ _ _ => 44, fun _ _ => 0⟩

/-- A write-mode file with an open stream and a populated record buffer. -/
def fileWrite : HtsFile :=
  ⟨⟨5, "out.bam"⟩, some ⟨[], 0⟩, some ⟨[("chr1", 248956422)]⟩,
   some ⟨"readA", 0, 990, 1000, [1]⟩, none, none, lit_wb, false⟩

/-- Environment for the reopen scenario: opening succeeds and the header
parses. -/
def envReopen : HtsEnv :=
  ⟨fun _ _ => some ⟨[], 0⟩, fun _ => some ⟨[("chr1", 248956422)]⟩,
   fun _ _ => none, fun _ _ _ => none, fun _ _ => 0, fun _ _ _ => 0,
   fun _ _ _ => 0, fun _ _ => 0⟩

/-- An exhausted file: every pointer as after construction, sticky
end-of-stream flag already true. -/
def fileExhausted : HtsFile :=
  { HtsFile.mkEmpty lit_r with at_end := true }

/-- The state `fileExhausted` reaches after `open(file, "test.bam")`
succeeds in `envReopen`. -/
def fileReopened : HtsFile :=
  ⟨⟨5, "test.bam"⟩, some ⟨[], 0⟩, some ⟨[("chr1", 248956422)]⟩,
   some BamRec.empty, none, none, lit_r, true⟩

/-- C1: the spec says `writeRecord` is true when the underlying record
write succeeds and false exactly on I/O failure (and the source's own doc
comment says "True on success, otherwise false"). The source computes
`!sam_write1(...)`, which is true only when the returned `int` is 0;
htslib's `sam_write1` returns the positive byte count on a successful
record write, so at the successful return 44 the function reports false:
the code contradicts its own documentation. -/
theorem writeRecord_false_on_successful_write :
    writeRecord envWrite fileWrite = some false ∧ sam_write1_success 44 := by
  constructor
  · rfl
  · norm_num [sam_write1_success]

/-- C7 counterexample: the claim says reopening the file resets the sticky
end-of-stream flag. Reopening `fileExhausted` succeeds, yet the resulting
state still has `at_end = true`: neither the free `open` nor the member
`open` ever writes `at_end`. -/
theorem reopen_does_not_reset_at_end :
    openHts envReopen fileExhausted ⟨5, "test.bam"⟩ = some (fileReopened, true)
      ∧ fileReopened.at_end = true := by
  constructor
  · rfl
  · rfl

/-- Helper: the member `open` copies the `at_end` field unchanged into the
state it returns. -/
lemma openFile_at_end (env : HtsEnv) (f : HtsFile) (out : HtsFile × Bool)
    (h : HtsFile.openFile env f = some out) : out.1.at_end = f.at_end := by
  unfold HtsFile.openFile at h
  cases hop : env.hts_open f.filename f.file_mode with
  | none => rw [hop] at h; simp at h
  | some s =>
      rw [hop] at h
      by_cases hm : f.file_mode.addr = lit_r.addr <;>
        simp only [hm, if_true, if_false, reduceIte] at h <;>
        · obtain rfl := (Option.some.inj h).symm; rfl

/-- Helper: `readRecord` either preserves `at_end` or sets it to true, so
a true flag stays true. -/
lemma readRecord_at_end_true (f : HtsFile) (out : HtsFile × Bool)
    (h : readRecord f = some out) (ha : f.at_end = true) : out.1.at_end = true := by
  unfold readRecord at h
  cases hfp : f.fp with
  | none => rw [hfp] at h; simp at h
  | some s =>
      rw [hfp] at h
      cases hr : s.records[s.pos]? <;>
        simp only [sam_read1, hr] at h <;>
        · obtain rfl := (Option.some.inj h).symm; simp [ha]

/-- Helper: the parsing `readRecord` overloads return the state produced
by the plain `readRecord`. -/
lemma readRecordSeq_at_end_true (rec : HtsSequenceRecord) (f : HtsFile)
    (out : HtsSequenceRecord × HtsFile × Bool)
    (h : readRecordSeq rec f = some out) (ha : f.at_end = true) :
    out.2.1.at_end = true := by
  unfold readRecordSeq at h
  split at h
  · simp at h
  · next f' hrd =>
      split at h
      · obtain rfl := (Option.some.inj h).symm
        simpa using readRecord_at_end_true f (f', true) hrd ha
      · simp at h
  · next f' hrd =>
      obtain rfl := (Option.some.inj h).symm
      simpa using readRecord_at_end_true f (f', false) hrd ha

/-- Helper: same for the `BamAlignmentRecord` overload. -/
lemma readRecordBam_at_end_true (rec : BamAlignmentRecord) (f : HtsFile)
    (out : BamAlignmentRecord × HtsFile × Bool)
    (h : readRecordBam rec f = some out) (ha : f.at_end = true) :
    out.2.1.at_end = true := by
  unfold readRecordBam at h
  split at h
  · simp at h
  · next f' hrd =>
      split at h
      · obtain rfl := (Option.some.inj h).symm
        simpa using readRecord_at_end_true f (f', true) hrd ha
      · simp at h
  · next f' hrd =>
      obtain rfl := (Option.some.inj h).symm
      simpa using readRecord_at_end_true f (f', false) hrd ha

/-- Helper: `readRegion` copies `at_end` unchanged on both outcomes. -/
lemma readRegion_at_end (rec : HtsSequenceRecord) (f : HtsFile)
    (out : HtsSequenceRecord × HtsFile × Bool)
    (h : readRegion rec f = some out) : out.2.1.at_end = f.at_end := by
  unfold readRegion at h
  split at h
  · split at h
    · obtain rfl := (Option.some.inj h).symm; rfl
    · obtain rfl := (Option.some.inj h).symm; rfl
  · simp at h

/-- Helper: `writeRecordBam` returns a state differing from the input only
in the record buffer. -/
lemma writeRecordBam_at_end (env : HtsEnv) (f : HtsFile) (r : BamAlignmentRecord)
    (out : HtsFile × Bool) (h : writeRecordBam env f r = some out) :
    out.1.at_end = f.at_end := by
  unfold writeRecordBam at h
  rw [Option.map_eq_some'] at h
  obtain ⟨b, _, rfl⟩ := h
  rfl

/-- C7 (amended): once the sticky end-of-stream flag is true, no operation
of the interface resets it — including reopening, which leaves it true;
only constructing a fresh `HtsFile` starts it at false. -/
theorem at_end_sticky_across_ops :
    (∀ env f name out, openHts env f name = some out →
        f.at_end = true → out.1.at_end = true)
  ∧ (∀ env f out, HtsFile.openFile env f = some out →
        f.at_end = true → out.1.at_end = true)
  ∧ (∀ f out, readRecord f = some out → f.at_end = true → out.1.at_end = true)
  ∧ (∀ rec f out, readRecordSeq rec f = some out →
        f.at_end = true → out.2.1.at_end = true)
  ∧ (∀ rec f out, readRecordBam rec f = some out →
        f.at_end = true → out.2.1.at_end = true)
  ∧ (∀ rec f out, readRegion rec f = some out →
        f.at_end = true → out.2.1.at_end = true)
  ∧ (∀ f reg, f.at_end = true → ((setRegionS f reg).1).at_end = true)
  ∧ (∀ f c a b, f.at_end = true → ((setRegionNamed f c a b).1).at_end = true)
  ∧ (∀ f t a b, f.at_end = true → ((setRegionTid f t a b).1).at_end = true)
  ∧ (∀ env f, f.at_end = true → ((loadIndex env f).1).at_end = true)
  ∧ (∀ env f n, f.at_end = true → ((loadIndex2 env f n).1).at_end = true)
  ∧ (∀ env f m, f.at_end = true → ((buildIndex env f m).1).at_end = true)
  ∧ (∀ env f n m, f.at_end = true → ((buildIndex2 env f n m).1).at_end = true)
  ∧ (∀ env f r out, writeRecordBam env f r = some out →
        f.at_end = true → out.1.at_end = true)
  ∧ (∀ t s, t.at_end = true → (copyHeader t s).at_end = true)
  ∧ (∀ t s, t.at_end = true → (copyRecord t s).at_end = true)
  ∧ (∀ f, f.at_end = true → ((closeFile f).1).at_end = true)
  ∧ (∀ mode, (HtsFile.mkEmpty mode).at_end = false) := by
  refine ⟨?_, ?_, ?_, ?_, ?_, ?_, ?_, ?_, ?_, ?_, ?_, ?_, ?_, ?_, ?_, ?_, ?_, ?_⟩
  · intro env f name out h ha
    have := openFile_at_end env { f with filename := name } out h
    rwa [ha] at this
  · intro env f out h ha
    have := openFile_at_end env f out h
    rwa [ha] at this
  · exact readRecord_at_end_true
  · exact readRecordSeq_at_end_true
  · exact readRecordBam_at_end_true
  · intro rec f out h ha
    have := readRegion_at_end rec f out h
    rwa [ha] at this
  · intro f reg ha; exact ha
  · intro f c a b ha; exact ha
  · intro f t a b ha; exact ha
  · intro env f ha; exact ha
  · intro env f n ha; exact ha
  · intro env f m ha; exact ha
  · intro env f n m ha; exact ha
  · intro env f r out h ha
    have := writeRecordBam_at_end env f r out h
    rwa [ha] at this
  · intro t s ha; exact ha
  · intro t s ha; exact ha
  · intro f ha; exact ha
  · intro mode; rfl

/-- C7 witness: the amended theorem instantiated at the concrete reopen
scenario — `fileExhausted` reopened in `envReopen` still has the flag. -/
theorem at_end_sticky_across_ops_witness :
    fileExhausted.at_end = true ∧ fileReopened.at_end = true :=
  ⟨rfl, at_end_sticky_across_ops.1 envReopen fileExhausted ⟨5, "test.bam"⟩
      (fileReopened, true) rfl rfl⟩

/-- A read-mode file positioned on an already-exhausted region iterator
(stream open, empty iterator), used to instantiate the frame theorems. -/
def fileRegionDone : HtsFile :=
  ⟨⟨5, "test.bam"⟩, some ⟨[], 0⟩, some ⟨[("chr1", 248956422)]⟩,
   some BamRec.empty, some ⟨[]⟩, some ⟨[]⟩, lit_r, false⟩

/-- C9: `readRegion` never modifies the sticky end-of-stream flag — on
both outcomes the returned state carries `at_end` unchanged — and no other
operation apart from the sequential `readRecord` family writes the flag:
the `setRegion` overloads, index load/build, the write path, and the copy
helpers all preserve it exactly. -/
theorem readRegion_preserves_at_end :
    (∀ rec f out, readRegion rec f = some out → out.2.1.at_end = f.at_end)
  ∧ (∀ f reg, ((setRegionS f reg).1).at_end = f.at_end)
  ∧ (∀ f c a b, ((setRegionNamed f c a b).1).at_end = f.at_end)
  ∧ (∀ f t a b, ((setRegionTid f t a b).1).at_end = f.at_end)
  ∧ (∀ env f, ((loadIndex env f).1).at_end = f.at_end)
  ∧ (∀ env f n, ((loadIndex2 env f n).1).at_end = f.at_end)
  ∧ (∀ env f m, ((buildIndex env f m).1).at_end = f.at_end)
  ∧ (∀ env f n m, ((buildIndex2 env f n m).1).at_end = f.at_end)
  ∧ (∀ env f r out, writeRecordBam env f r = some out → out.1.at_end = f.at_end)
  ∧ (∀ t s, (copyHeader t s).at_end = t.at_end)
  ∧ (∀ t s, (copyRecord t s).at_end = t.at_end) := by
  refine ⟨readRegion_at_end, ?_, ?_, ?_, ?_, ?_, ?_, ?_, writeRecordBam_at_end,
      ?_, ?_⟩ <;> intros <;> rfl

/-- C9 witness: the frame theorem applied to a concrete exhausted-region
read (which returns false) and to a concrete successful one. -/
theorem readRegion_preserves_at_end_witness :
    readRegion ⟨"", []⟩ fileRegionDone = some (⟨"", []⟩, fileRegionDone, false)
      ∧ ((⟨"", []⟩, fileRegionDone, false) :
          HtsSequenceRecord × HtsFile × Bool).2.1.at_end = fileRegionDone.at_end :=
  ⟨rfl, readRegion_preserves_at_end.1 ⟨"", []⟩ fileRegionDone
      (⟨"", []⟩, fileRegionDone, false) rfl⟩

/-- C10: whenever a record-parsing read overload returns false, the
caller-supplied output record is returned unchanged — `parse` runs only on
the success path of all three overloads. -/
theorem read_failure_leaves_record_unchanged :
    (∀ rec f out, readRecordSeq rec f = some out → out.2.2 = false → out.1 = rec)
  ∧ (∀ rec f out, readRecordBam rec f = some out → out.2.2 = false → out.1 = rec)
  ∧ (∀ rec f out, readRegion rec f = some out → out.2.2 = false → out.1 = rec) := by
  refine ⟨?_, ?_, ?_⟩
  · intro rec f out h hfalse
    unfold readRecordSeq at h
    split at h
    · simp at h
    · split at h
      · obtain rfl := (Option.some.inj h).symm; simp at hfalse
      · simp at h
    · obtain rfl := (Option.some.inj h).symm; rfl
  · intro rec f out h hfalse
    unfold readRecordBam at h
    split at h
    · simp at h
    · split at h
      · obtain rfl := (Option.some.inj h).symm; simp at hfalse
      · simp at h
    · obtain rfl := (Option.some.inj h).symm; rfl
  · intro rec f out h hfalse
    unfold readRegion at h
    split at h
    · split at h
      · obtain rfl := (Option.some.inj h).symm; simp at hfalse
      · obtain rfl := (Option.some.inj h).symm; rfl
    · simp at h

/-- C10 witness: a failing `readRegion` on a concrete exhausted iterator
hands back the exact record value passed in. -/
theorem read_failure_leaves_record_unchanged_witness :
    readRegion ⟨"keep", [7]⟩ fileRegionDone = some (⟨"keep", [7]⟩, fileRegionDone, false)
      ∧ ((⟨"keep", [7]⟩, fileRegionDone, false) :
          HtsSequenceRecord × HtsFile × Bool).1 = (⟨"keep", [7]⟩ : HtsSequenceRecord) :=
  ⟨rfl, read_failure_leaves_record_unchanged.2.2 ⟨"keep", [7]⟩ fileRegionDone
      (⟨"keep", [7]⟩, fileRegionDone, false) rfl rfl⟩

/-- A file with an active iterator holding one pending record but no
loaded index and a header that cannot resolve the requested name. -/
def fileWithIter : HtsFile :=
  ⟨⟨5, "test.bam"⟩, some ⟨[], 0⟩, some ⟨[("chr1", 248956422)]⟩,
   some BamRec.empty, none, some ⟨[⟨"old", 0, 1, 2, []⟩]⟩, lit_r, false⟩

/-- C4: every `setRegion` overload begins by destroying any active
iterator — the destroy call precedes the index query in the emitted call
sequence whenever an iterator was active — and when the region fails to
resolve the call returns false and leaves the file with no active
iterator, whatever iterator existed before. -/
theorem setRegion_clears_iterator (f : HtsFile) :
    (∀ reg it, f.hts_iter = some it →
        (setRegionS f reg).2.2 = [LibCall.samItrDestroy it, LibCall.samItrQuerys reg])
  ∧ (∀ reg, f.hts_iter = none → (setRegionS f reg).2.2 = [LibCall.samItrQuerys reg])
  ∧ (∀ reg, sam_itr_querys f.hts_index f.hdr reg = none →
        (setRegionS f reg).2.1 = false ∧ (setRegionS f reg).1.hts_iter = none)
  ∧ (∀ c a b it, f.hts_iter = some it →
        (setRegionNamed f c a b).2.2.head? = some (LibCall.samItrDestroy it))
  ∧ (∀ c a b, sam_itr_querys f.hts_index f.hdr (Region.range c a b) = none →
        (setRegionNamed f c a b).2.1 = false ∧ (setRegionNamed f c a b).1.hts_iter = none)
  ∧ (∀ t a b it, f.hts_iter = some it →
        (setRegionTid f t a b).2.2.head? = some (LibCall.samItrDestroy it))
  ∧ (∀ t a b, sam_itr_queryi f.hts_index t a b = none →
        (setRegionTid f t a b).2.1 = false ∧ (setRegionTid f t a b).1.hts_iter = none) := by
  refine ⟨?_, ?_, ?_, ?_, ?_, ?_, ?_⟩
  · intro reg it h; simp [setRegionS, destroyCalls, h]
  · intro reg h; simp [setRegionS, destroyCalls, h]
  · intro reg h; simp [setRegionS, h]
  · intro c a b it h; simp [setRegionNamed, destroyCalls, h]
  · intro c a b h; simp [setRegionNamed, h]
  · intro t a b it h; simp [setRegionTid, destroyCalls, h]
  · intro t a b h; simp [setRegionTid, h]

/-- C4 witness: with a concrete prior iterator and a name (`"chrX"`)
absent from the header dictionary, the failed `setRegion` destroys the old
iterator first, returns false, and leaves no iterator. -/
theorem setRegion_clears_iterator_witness :
    fileWithIter.hts_iter = some ⟨[⟨"old", 0, 1, 2, []⟩]⟩
  ∧ (setRegionS fileWithIter (Region.all "chrX")).2.2
      = [LibCall.samItrDestroy ⟨[⟨"old", 0, 1, 2, []⟩]⟩,
         LibCall.samItrQuerys (Region.all "chrX")]
  ∧ sam_itr_querys fileWithIter.hts_index fileWithIter.hdr (Region.all "chrX") = none
  ∧ (setRegionS fileWithIter (Region.all "chrX")).2.1 = false
  ∧ (setRegionS fileWithIter (Region.all "chrX")).1.hts_iter = none :=
  ⟨rfl,
   (setRegion_clears_iterator fileWithIter).1 (Region.all "chrX") ⟨[⟨"old", 0, 1, 2, []⟩]⟩ rfl,
   rfl,
   ((setRegion_clears_iterator fileWithIter).2.2.1 (Region.all "chrX") rfl).1,
   ((setRegion_clears_iterator fileWithIter).2.2.1 (Region.all "chrX") rfl).2⟩

/-- A freshly opened read-mode file whose stream holds no records. -/
def fileEmptyStream : HtsFile :=
  ⟨lit_empty, some ⟨[], 0⟩, none, none, none, none, lit_r, false⟩

/-- The state of `fileEmptyStream` after its first failing `readRecord`. -/
def fileEmptyDone : HtsFile :=
  ⟨lit_empty, some ⟨[], 0⟩, none, none, none, none, lit_r, true⟩

/-- C6: after a failing `readRecord` the file is exhausted: `atEnd` is
true, and the exhausted state is a fixed point — every further
`readRecord` call returns false on the identical state, so the failure
repeats deterministically while `atEnd` stays true. -/
theorem readRecord_failure_exhausts (f f' : HtsFile)
    (h : readRecord f = some (f', false)) :
    atEnd f' = true ∧ readRecord f' = some (f', false)
      ∧ ∀ n, iterateRead n f' = some (f', false) := by
  unfold readRecord at h
  cases hfp : f.fp with
  | none => rw [hfp] at h; simp at h
  | some s =>
      rw [hfp] at h
      cases hr : s.records[s.pos]? with
      | some r =>
          simp only [sam_read1, hr] at h
          exact absurd (congrArg Prod.snd (Option.some.inj h)) (by simp)
      | none =>
          simp only [sam_read1, hr] at h
          have hf : ({ f with fp := some s, at_end := true } : HtsFile) = f' :=
            congrArg Prod.fst (Option.some.inj h)
          subst hf
          have hfix : readRecord { f with fp := some s, at_end := true }
              = some ({ f with fp := some s, at_end := true }, false) := by
            unfold readRecord
            simp only [sam_read1, hr]
          refine ⟨rfl, hfix, ?_⟩
          intro n
          induction n with
          | zero => exact hfix
          | succ n ih =>
              show iterateRead (n + 1) _ = _
              unfold iterateRead
              rw [hfix]
              exact ih

/-- C6 witness: the exhaustion theorem at a concrete empty stream; the
fifth repeat of the failing call still returns false on the same state. -/
theorem readRecord_failure_exhausts_witness :
    readRecord fileEmptyStream = some (fileEmptyDone, false)
      ∧ atEnd fileEmptyDone = true
      ∧ iterateRead 5 fileEmptyDone = some (fileEmptyDone, false) :=
  ⟨rfl, (readRecord_failure_exhausts fileEmptyStream fileEmptyDone rfl).1,
   (readRecord_failure_exhausts fileEmptyStream fileEmptyDone rfl).2.2 5⟩

/-- A read-mode string equal to `"r"` in content but living at its own
address — e.g. a heap-allocated or array copy of `"r"`, which the C
pointer comparison in `open()` does not identify with the pooled
literal. -/
def modeCopyR : CStr := ⟨10, "r"⟩

/-- A file whose mode is the copied read-mode string. -/
def fileModeCopy : HtsFile :=
  { HtsFile.mkEmpty modeCopyR with filename := ⟨5, "test.bam"⟩ }

/-- A file whose mode is the pooled `"r"` literal, as the `HtsFileIn`
constructors produce. -/
def fileLitR : HtsFile :=
  { HtsFile.mkEmpty lit_r with filename := ⟨5, "test.bam"⟩ }

/-- Environment in which opening succeeds but the header fails to parse
(`sam_hdr_read` returns null, e.g. on a corrupt header block). -/
def envHdrFails : HtsEnv :=
  ⟨fun _ _ => some ⟨[], 0⟩, fun _ => none,
   fun _ _ => none, fun _ _ _ => none, fun _ _ => 0, fun _ _ _ => 0,
   fun _ _ _ => 0, fun _ _ => 0⟩

/-- C2 counterexample: two successful opens after which the Header is
null. First, a mode string that denotes read mode (content `"r"`) but is
a distinct pointer from the `read_mode` literal: the `file_mode ==
read_mode` address comparison fails, the header load is skipped entirely,
and `open` returns true with a null Header. Second, even with the pooled
literal, `open` stores the result of `sam_hdr_read` unchecked, so a failed
header parse also leaves a null Header behind a successful open. -/
theorem open_read_header_can_be_null :
    modeCopyR.content = lit_r.content
  ∧ (HtsFile.openFile envReopen fileModeCopy).map (fun p => (p.1.hdr, p.2))
      = some (none, true)
  ∧ (HtsFile.openFile envHdrFails fileLitR).map (fun p => (p.1.hdr, p.2))
      = some (none, true) :=
  ⟨rfl, rfl, rfl⟩

/-- C2 (amended): when the stored mode pointer is the `read_mode` literal
itself (address equality, as for `HtsFileIn`-constructed files), a
successful `open` invokes `sam_hdr_read` in the same call and stores its
result, so the Header is non-null immediately after `open` returns true
provided the underlying header parse succeeds. -/
theorem openFile_read_literal_loads_header
    (env : HtsEnv) (f : HtsFile) (s : StreamHandle) (hd : Header)
    (hmode : f.file_mode.addr = lit_r.addr)
    (hopen : env.hts_open f.filename f.file_mode = some s)
    (hhdr : env.sam_hdr_read s = some hd) :
    (HtsFile.openFile env f).map (fun p => (p.1.hdr, p.2)) = some (some hd, true) := by
  unfold HtsFile.openFile
  rw [hopen]
  simp [hmode, hhdr]

/-- C2 witness: the amended theorem at the pooled-literal file in an
environment whose header parse succeeds. -/
theorem openFile_read_literal_loads_header_witness :
    fileLitR.file_mode.addr = lit_r.addr
  ∧ envReopen.hts_open fileLitR.filename fileLitR.file_mode = some ⟨[], 0⟩
  ∧ envReopen.sam_hdr_read ⟨[], 0⟩ = some ⟨[("chr1", 248956422)]⟩
  ∧ (HtsFile.openFile envReopen fileLitR).map (fun p => (p.1.hdr, p.2))
      = some (some ⟨[("chr1", 248956422)]⟩, true) :=
  ⟨rfl, rfl, rfl,
   openFile_read_literal_loads_header envReopen fileLitR ⟨[], 0⟩
     ⟨[("chr1", 248956422)]⟩ rfl rfl rfl⟩

/-- Helper: draining a file whose active iterator holds the record list
`l` yields exactly `l`, parsed, once the fuel covers the list. -/
lemma drainRegion_eq_of_iter (rec : HtsSequenceRecord) :
    ∀ (l : List BamRec) (n : Nat) (f : HtsFile) (s : StreamHandle),
      f.fp = some s → f.hts_iter = some ⟨l⟩ → l.length ≤ n →
      drainRegion rec n f = l.map HtsSequenceRecord.parse := by
  intro l
  induction l with
  | nil =>
      intro n f s hfp hit _
      cases n with
      | zero => rfl
      | succ n =>
          have hread : readRegion rec f = some (rec, f, false) := by
            unfold readRegion
            rw [hfp, hit]
          unfold drainRegion
          rw [hread]
          rfl
  | cons r rest ih =>
      intro n f s hfp hit hn
      cases n with
      | zero => simp at hn
      | succ n =>
          have hread : readRegion rec f
              = some (HtsSequenceRecord.parse r,
                  { f with hts_iter := some ⟨rest⟩, hts_record := some r }, true) := by
            unfold readRegion
            rw [hfp, hit]
          have hrec := ih n { f with hts_iter := some ⟨rest⟩, hts_record := some r } s
            hfp rfl (Nat.succ_le_succ_iff.mp (by simpa using hn))
          unfold drainRegion
          rw [hread]
          show HtsSequenceRecord.parse r
              :: drainRegion rec n { f with hts_iter := some ⟨rest⟩, hts_record := some r }
            = List.map HtsSequenceRecord.parse (r :: rest)
          rw [hrec]
          rfl

/-- A record whose alignment interval is `[990, 1000)` — it touches
coordinate 999 but lies entirely left of coordinate 1000. -/
def recEdge : BamRec := ⟨"readA", 0, 990, 1000, [1]⟩

/-- A header with the single reference `chr1`. -/
def hdrChr1 : Header := ⟨[("chr1", 248956422)]⟩

/-- An open read-mode file whose loaded index covers the one record
`recEdge`. -/
def fileIndexed : HtsFile :=
  ⟨⟨5, "test.bam"⟩, some ⟨[recEdge], 0⟩, some hdrChr1, some BamRec.empty,
   some ⟨[recEdge]⟩, none, lit_r, false⟩

/-- C3 counterexample: `setRegion(file, "chr1", 1000, 2000)` formats the
1-based inclusive string `chr1:1000-2000`, whose converted query interval
is `[999, 2000)` — not `[1000, 2000)` as the claim states. The subsequent
`readRegion` therefore returns `recEdge`, a record whose alignment
interval `[990, 1000)` does not overlap `[1000, 2000)`. -/
theorem setRegionNamed_off_by_one :
    (setRegionNamed fileIndexed "chr1" 1000 2000).2.1 = true
  ∧ readRegion ⟨"", []⟩ (setRegionNamed fileIndexed "chr1" 1000 2000).1
      = some (⟨"readA", [1]⟩,
          ⟨⟨5, "test.bam"⟩, some ⟨[recEdge], 0⟩, some hdrChr1, some recEdge,
           some ⟨[recEdge]⟩, some ⟨[]⟩, lit_r, false⟩, true)
  ∧ overlapsRegion recEdge 0 1000 2000 = false := by
  refine ⟨?_, ?_, ?_⟩ <;> rfl

/-- C3 (amended): the integer `(name, start, end)` overload goes through
the 1-based inclusive string form, so the interval actually queried is the
0-based half-open `[start - 1, end)`: the resulting iterator holds, and
`readRegion` returns, exactly the index's records overlapping
`[start - 1, end)`; only the `(tid, start, end)` overload queries
`[start, end)` as given. -/
theorem setRegionNamed_queries_start_minus_one
    (f : HtsFile) (ix : Index) (h : Header) (c : String) (a b tid : Int)
    (s : StreamHandle) (rec : HtsSequenceRecord) (n : Nat)
    (hix : f.hts_index = some ix) (hh : f.hdr = some h)
    (htid : bam_name2id h c = some tid) (hfp : f.fp = some s)
    (hn : (ix.recs.filter (fun r => overlapsRegion r tid (a - 1) b)).length ≤ n) :
    (setRegionNamed f c a b).2.1 = true
  ∧ (setRegionNamed f c a b).1.hts_iter
      = some ⟨ix.recs.filter (fun r => overlapsRegion r tid (a - 1) b)⟩
  ∧ drainRegion rec n (setRegionNamed f c a b).1
      = (ix.recs.filter (fun r => overlapsRegion r tid (a - 1) b)).map
          HtsSequenceRecord.parse
  ∧ (setRegionTid f tid a b).1.hts_iter
      = some ⟨ix.recs.filter (fun r => overlapsRegion r tid a b)⟩ := by
  have hq : sam_itr_querys f.hts_index f.hdr (Region.range c a b)
      = some ⟨ix.recs.filter (fun r => overlapsRegion r tid (a - 1) b)⟩ := by
    rw [hix, hh]
    unfold sam_itr_querys
    simp [Region.rname, Region.beg0, Region.end0, htid]
  refine ⟨?_, ?_, ?_, ?_⟩
  · simp [setRegionNamed, hq]
  · simp [setRegionNamed, hq]
  · refine drainRegion_eq_of_iter rec _ n _ s hfp ?_ hn
    simp [setRegionNamed, hq]
  · simp [setRegionTid, sam_itr_queryi, hix]

/-- C3 witness: the amended theorem at the concrete file — draining the
region set by `setRegion(file, "chr1", 1000, 2000)` yields exactly the one
record overlapping `[999, 2000)`. -/
theorem setRegionNamed_queries_start_minus_one_witness :
    bam_name2id hdrChr1 "chr1" = some 0
  ∧ (setRegionNamed fileIndexed "chr1" 1000 2000).2.1 = true
  ∧ drainRegion ⟨"", []⟩ 1 (setRegionNamed fileIndexed "chr1" 1000 2000).1
      = [⟨"readA", [1]⟩] :=
  ⟨rfl,
   (setRegionNamed_queries_start_minus_one fileIndexed ⟨[recEdge]⟩ hdrChr1
      "chr1" 1000 2000 0 ⟨[recEdge], 0⟩ ⟨"", []⟩ 1 rfl rfl rfl rfl
      (by decide)).1,
   ((setRegionNamed_queries_start_minus_one fileIndexed ⟨[recEdge]⟩ hdrChr1
      "chr1" 1000 2000 0 ⟨[recEdge], 0⟩ ⟨"", []⟩ 1 rfl rfl rfl rfl
      (by decide)).2.2.1).trans (by decide)⟩

/-- A record whose alignment interval `[1500, 1600)` lies inside the
queried region. -/
def recMid : BamRec := ⟨"readB", 0, 1500, 1600, [2]⟩

/-- Environment in which the on-disk index exists (and `sam_index_load`
finds it, holding `recMid`) and `sam_index_build` succeeds (returns 0). -/
def envBuild : HtsEnv :=
  ⟨fun _ _ => none, fun _ => none, fun _ _ => some ⟨[recMid]⟩, fun _ _ _ => none,
   fun _ _ => 0, fun _ _ _ => 0, fun _ _ _ => 0, fun _ _ => 0⟩

/-- An open read-mode file with a resolvable header but no loaded
index. -/
def fileNoIndex : HtsFile :=
  ⟨⟨5, "test.bam"⟩, some ⟨[recMid], 0⟩, some hdrChr1, some BamRec.empty,
   none, none, lit_r, false⟩

/-- The region `chr1:1000-2000`, resolvable against `hdrChr1`. -/
def regMid : Region := Region.range "chr1" 1000 2000

/-- C5 counterexample: `buildIndex` returns true (the on-disk build
succeeds) but writes no field of the file — `hts_index` stays null — so
the very next `setRegion` fails and yields no iterator, even though the
same region succeeds once `loadIndex` attaches the index the build
produced. The index is NOT usable for region queries after a successful
`buildIndex` alone. -/
theorem buildIndex_does_not_attach_index :
    buildIndex envBuild fileNoIndex 0 = (fileNoIndex, true)
  ∧ fileNoIndex.hts_index = none
  ∧ (setRegionS fileNoIndex regMid).2.1 = false
  ∧ (setRegionS fileNoIndex regMid).1.hts_iter = none
  ∧ (setRegionS (loadIndex envBuild fileNoIndex).1 regMid).2.1 = true := by
  refine ⟨rfl, rfl, rfl, rfl, rfl⟩

/-- C5 (amended): a region query needs a loaded index. `buildIndex` (both
overloads) leaves the file object untouched, so after it alone the index
is still unattached; `setRegion` on a file with a null index fails and
yields no iterator; a successful `loadIndex` attaches the index, after
which `setRegion` succeeds for any region whose name the header
resolves. -/
theorem region_query_requires_loaded_index :
    (∀ env f m, (buildIndex env f m).1 = f)
  ∧ (∀ env f nm m, (buildIndex2 env f nm m).1 = f)
  ∧ (∀ f reg, f.hts_index = none →
        (setRegionS f reg).2.1 = false ∧ (setRegionS f reg).1.hts_iter = none)
  ∧ (∀ f t a b, f.hts_index = none →
        (setRegionTid f t a b).2.1 = false ∧ (setRegionTid f t a b).1.hts_iter = none)
  ∧ (∀ env f ix, env.sam_index_load f.fp f.filename = some ix →
        (loadIndex env f).2 = true ∧ (loadIndex env f).1.hts_index = some ix)
  ∧ (∀ f ix h tid reg, f.hts_index = some ix → f.hdr = some h →
        bam_name2id h reg.rname = some tid → (setRegionS f reg).2.1 = true) := by
  refine ⟨?_, ?_, ?_, ?_, ?_, ?_⟩
  · intro env f m; rfl
  · intro env f nm m; rfl
  · intro f reg hix
    have hq : sam_itr_querys f.hts_index f.hdr reg = none := by
      rw [hix]; unfold sam_itr_querys
      cases f.hdr <;> rfl
    exact ⟨by simp [setRegionS, hq], by simp [setRegionS, hq]⟩
  · intro f t a b hix
    have hq : sam_itr_queryi f.hts_index t a b = none := by
      rw [hix]; rfl
    exact ⟨by simp [setRegionTid, hq], by simp [setRegionTid, hq]⟩
  · intro env f ix hld
    exact ⟨by simp [loadIndex, hld], by simp [loadIndex, hld]⟩
  · intro f ix h tid reg hix hh htid
    have hq : sam_itr_querys f.hts_index f.hdr reg
        = some ⟨ix.recs.filter (fun r => overlapsRegion r tid reg.beg0 reg.end0)⟩ := by
      rw [hix, hh]; unfold sam_itr_querys; simp [htid]
    simp [setRegionS, hq]

/-- C5 witness: the amended theorem at the concrete scenario — the
null-index query fails, and after `loadIndex` attaches the built index the
same region query succeeds. -/
theorem region_query_requires_loaded_index_witness :
    fileNoIndex.hts_index = none
  ∧ (setRegionS fileNoIndex regMid).2.1 = false
  ∧ (loadIndex envBuild fileNoIndex).1.hts_index = some ⟨[recMid]⟩
  ∧ (setRegionS (loadIndex envBuild fileNoIndex).1 regMid).2.1 = true :=
  ⟨rfl,
   (region_query_requires_loaded_index.2.2.1 fileNoIndex regMid rfl).1,
   (region_query_requires_loaded_index.2.2.2.2.1 envBuild fileNoIndex
      ⟨[recMid]⟩ rfl).2,
   region_query_requires_loaded_index.2.2.2.2.2
      (loadIndex envBuild fileNoIndex).1 ⟨[recMid]⟩ hdrChr1 0 regMid rfl rfl rfl⟩

/-- A file with a parsed header and an open stream, about to be torn
down. -/
def fileOpenHdr : HtsFile :=
  ⟨⟨5, "test.bam"⟩, some ⟨[], 0⟩, some hdrChr1, none, none, none, lit_r, false⟩

/-- C8: teardown of an `HtsFile`. In the call sequence of the destructor,
every header release precedes every stream-handle release; tearing down a
never-opened handle (every owned pointer still null, as the empty
constructor leaves it) releases nothing — `bam_hdr_destroy` and
`hts_close` are null-tolerant, so the call is safe — and teardown of an
already-torn-down state is a no-op (idempotent close). -/
theorem destruct_releases_header_before_handle :
    (∀ (f : HtsFile) (i j : Nat) (hd : Header) (st : StreamHandle),
        f.destruct.get? i = some (LibCall.bamHdrDestroy hd) →
        f.destruct.get? j = some (LibCall.htsClose st) → i < j)
  ∧ (∀ mode, closeFile (HtsFile.mkEmpty mode) = (HtsFile.mkEmpty mode, []))
  ∧ (∀ f, closeFile (closeFile f).1 = ((closeFile f).1, [])) := by
  refine ⟨?_, ?_, ?_⟩
  · intro f i j hd st h1 h2
    cases hH : f.hdr <;> cases hF : f.fp <;>
      simp only [HtsFile.destruct, bamHdrDestroyCalls, htsCloseCalls, hH, hF,
        List.nil_append, List.append_nil] at h1 h2
    · simp at h1
    · cases i <;> simp at h1
    · cases j <;> simp at h2
    · cases i with
      | zero =>
          cases j with
          | zero => simp at h2
          | succ j => exact Nat.succ_pos j
      | succ i =>
          cases i with
          | zero => simp at h1
          | succ i => simp at h1
  · intro mode; rfl
  · intro f; rfl

/-- C8 witness: the order theorem at a concrete opened file — the header
release is call 0, the stream close is call 1, and 0 < 1. -/
theorem destruct_releases_header_before_handle_witness :
    fileOpenHdr.destruct.get? 0 = some (LibCall.bamHdrDestroy hdrChr1)
  ∧ fileOpenHdr.destruct.get? 1 = some (LibCall.htsClose ⟨[], 0⟩)
  ∧ 0 < 1 :=
  ⟨rfl, rfl,
   destruct_releases_header_before_handle.1 fileOpenHdr 0 1 hdrChr1 ⟨[], 0⟩ rfl rfl⟩

end seqan
